import Mathlib

/-!
# Verification of the `failure` multi-error aggregation subsystem

This file gives a shallow embedding, in Lean 4, of the multi-error
aggregation code of the `rsb/failure` Go repository (type `Multi`, its
methods `Error`, `ErrorOrNil`, `WrappedErrors`, `Unwrap`, the adapter type
`chain`, and the functions `Append`, `Flatten`, `IsMultiple`,
`MultiResult`, `ListFormatFn`, and the concurrent collector `Group`), and
proves or refutes the frozen specification claims about it.

Modelling conventions:

* A Go `error` interface value is an `Err` tree.  A non-nil interface
  holding a typed-nil `*Multi` pointer is the dedicated constructor
  `Err.multiNil`; an untyped nil `error` is `Option.none` at interfaces
  where Go allows nil.
* Go panics (nil-pointer dereferences) are modelled by returning `none`
  from an `Option`-valued function.
* A formatter (`MultiFormatFn`, Go type `func([]error) string`) is
  abstracted as a function on the failures' display strings
  (`List String → String`); the default-vs-custom dispatch of
  `Multi.Error` is preserved exactly.
* Go interface equality (`==`, used by `errors.Is`) is `goEq`.  Values
  of pointer types carry explicit allocation identities: two `base`
  errors, or two non-nil `*Multi` values, are equal iff they carry the
  same `id` (pointer equality; in a well-formed state equal identities
  come with identical contents), and two typed-nil `*Multi` values are
  equal.  A `chain` is a slice value, which `errors.Is` never finds
  comparable.  `wrap` allocations are modelled as pairwise distinct
  (never interface-equal): no claim involves self-identity of a wrapper,
  and the C1 equation is parametric in the leaf equality.
* Slice mutation (the shallow copy performed by `Multi.Unwrap` and the
  in-place growth performed by `Append` on `Failures`) is modelled
  separately by a small heap of backing arrays, used for the frame claim.
-/

/-- A Go `MultiFormatFn`, abstracted to act on the display strings of the
failures it is given. -/
abbrev FmtT := List String → String

/-- Go `error` values relevant to the aggregation subsystem:
`base id msg` is a leaf error (e.g. `errors.New`) with allocation identity
`id` and display string `msg`; `wrap msg cause` is a wrapping error whose
`Unwrap` yields `cause` and whose display string is `msg` (e.g.
`fmt.Errorf` with `%w`); `multi id failures formatter` is a non-nil
`*Multi` pointer with allocation identity `id` pointing at a struct with
the given `Failures` and `Formatter` fields; `multiNil` is a typed-nil
`*Multi`; `chainE errs` is a `chain` value. -/
inductive Err where
  | base (id : Nat) (msg : String)
  | wrap (msg : String) (cause : Err)
  | multi (id : Nat) (failures : List Err) (formatter : Option FmtT)
  | multiNil
  | chainE (errs : List Err)

/-- Go interface equality (`==`) as used by `errors.Is`.  Two `base`
errors, or two non-nil `*Multi` pointers, are equal iff they are the same
allocation (same `id`); two typed-nil `*Multi` interface values are
equal; a `chain` has a non-comparable slice type; `wrap` allocations are
modelled as pairwise distinct; every comparison across different dynamic
types is false. -/
def goEq : Err → Err → Bool
  | .base i m, .base j n => i == j && m == n
  | .multi i _ _, .multi j _ _ => i == j
  | .multiNil, .multiNil => true
  | _, _ => false

/-- Source `ListFormatFn` (the default formatter), acting on the display
strings of the failures: one failure gives
`"1 error occurred:\n\t* <err>\n\n"`, otherwise the count followed by the
bullets joined by newline-plus-tab, with two trailing newlines. -/
def listFormatFn : FmtT := fun es =>
  match es with
  | [e] => "1 error occurred:\n\t* " ++ e ++ "\n\n"
  | es =>
      toString es.length ++ " errors occurred:\n\t" ++
        String.intercalate "\n\t" (es.map (fun e => "* " ++ e)) ++ "\n\n"

/-- Display string produced when `fmt` formats a value whose `Error`
method panics (as a typed-nil `*Multi` receiver does): `fmt` recovers the
panic and prints a diagnostic instead.  No claim depends on this text. -/
def nilMultiPanicText : String :=
  "%!s(PANIC=Error method: runtime error: invalid memory address or nil pointer dereference)"

mutual

/-- Display string of an error value, following each type's `Error`
method: `base` and `wrap` carry their message; a non-nil `*Multi` applies
its formatter (default `ListFormatFn` when unset) to its failures'
display strings (source `Multi.Error`); a typed-nil `*Multi` formatted as
an element yields the `fmt` panic-recovery text; a `chain` displays its
head (source `chain.Error`, the chain being non-empty by construction). -/
def errMsg : Err → String
  | .base _ m => m
  | .wrap m _ => m
  | .multi _ fs fmt => (fmt.getD listFormatFn) (errMsgList fs)
  | .multiNil => nilMultiPanicText
  | .chainE es => (errMsgList es).headD ""

/-- Display strings of a list of error values. -/
def errMsgList : List Err → List String
  | [] => []
  | e :: es => errMsg e :: errMsgList es

end

/-- A `*Multi` reference: `none` is a typed-nil pointer,
`some (i, fs, fmt)` is a pointer with allocation identity `i` to a struct
with fields `Failures = fs`, `Formatter = fmt` (`fmt = none` meaning a
nil `Formatter` field). -/
abbrev MRef := Option (Nat × List Err × Option FmtT)

/-- The error value a non-nil or typed-nil `*Multi` reference denotes when
passed through the `error` interface. -/
def MRef.toErr : MRef → Err
  | none => .multiNil
  | some (i, fs, fmt) => .multi i fs fmt

/-- Source `Multi.Error`: reads `e.Formatter` (a nil-pointer dereference,
modelled `none`, when the receiver is typed nil), substitutes
`ListFormatFn` when the field is nil, and applies it to `e.Failures`. -/
def MultiError : MRef → Option String
  | none => none
  | some (_, fs, fmt) => some ((fmt.getD listFormatFn) (errMsgList fs))

/-- Source `Multi.ErrorOrNil`: nil for a nil receiver, nil for an empty
failure list, otherwise the receiver itself (the same allocation) as an
error value. -/
def ErrorOrNilM : MRef → Option Err
  | none => none
  | some (i, fs, fmt) => if fs.length = 0 then none else some (.multi i fs fmt)

/-- Source `Multi.WrappedErrors`: nil-guarded access to `e.Failures`. -/
def WrappedErrorsM : MRef → List Err
  | none => []
  | some (_, fs, _) => fs

/-- Source `Multi.Unwrap`, value-level view: nil receiver or empty list
gives no further cause; a single failure is returned directly; two or
more failures give a `chain` over (a shallow copy of) the failure list.
The copy is invisible at the level of values; the heap-level model
`unwrapH` below makes the allocation explicit. -/
def UnwrapM : MRef → Option Err
  | none => none
  | some (_, fs, _) =>
      match fs with
      | [] => none
      | [f] => some f
      | fs => some (.chainE fs)

mutual

/-- Go `errors.Is err target` over our value forms, for a non-nil
`target`.  At each step it checks interface equality, then the `Is`
method when present (`chain.Is` delegates to `errors.Is` on the chain
head; no other form has an `Is` method), then follows `Unwrap`:
`wrap` unwraps to its cause, `*Multi` unwraps per `Multi.Unwrap`
(nothing when empty or typed nil, the sole failure when singleton, a
`chain` over the failures otherwise), and `chain.Unwrap` yields the tail
chain, or nothing from a singleton.  An empty `chain` cannot be built by
the source (`chain` carries the precondition `len > 0`). -/
def errIs : Err → Err → Bool
  | .base i m, t => goEq (.base i m) t
  | .wrap m c, t => goEq (.wrap m c) t || errIs c t
  | .multiNil, t => goEq .multiNil t
  | .multi i fs fmt, t =>
      goEq (.multi i fs fmt) t ||
        match fs with
        | [] => false
        | [f] => errIs f t
        | f1 :: f2 :: fs => chainIs (f1 :: f2 :: fs) t
  | .chainE es, t => chainIs es t

/-- The `errors.Is` walk arrived at a `chain` holding `es`: interface
equality check on the chain value, then `chain.Is` (delegating to the
head), then `chain.Unwrap` to the tail chain (nothing from a
singleton). -/
def chainIs : List Err → Err → Bool
  | [], t => goEq (.chainE []) t
  | [f], t => goEq (.chainE [f]) t || errIs f t
  | f1 :: f2 :: fs, t =>
      goEq (.chainE (f1 :: f2 :: fs)) t || (errIs f1 t || chainIs (f2 :: fs) t)

end

mutual

/-- Go `errors.As err target` specialised to a `**Multi` target, as used
by `IsMultiple`.  At each step: the dynamic type `*Multi` (nil or not) is
assignable to the target, succeeding; otherwise the `As` method is tried
(`chain.As` delegates to `errors.As` on the chain head); otherwise the
walk follows `Unwrap` exactly as in `errIs`. -/
def errAsMulti : Err → Bool
  | .base _ _ => false
  | .wrap _ c => errAsMulti c
  | .multi _ _ _ => true
  | .multiNil => true
  | .chainE es => chainAsMulti es

/-- The `errors.As` walk arrived at a `chain` holding `es`: the chain's
dynamic type is not `*Multi`, so `chain.As` is tried (delegating to the
head), then `chain.Unwrap` to the tail chain. -/
def chainAsMulti : List Err → Bool
  | [] => false
  | [f] => errAsMulti f
  | f1 :: f2 :: fs => errAsMulti f1 || chainAsMulti (f2 :: fs)

end

/-- Go `errors.Unwrap e`: calls the `Unwrap` method when the dynamic type
has one (`wrap`, `*Multi` per `Multi.Unwrap`, `chain` per `chain.Unwrap`),
returning `none` otherwise.  `chain.Unwrap` on the unreachable empty
chain would fault slicing `e[1:]`; modelled as `none`. -/
def goUnwrap1 : Err → Option Err
  | .base _ _ => none
  | .wrap _ c => some c
  | .multi i fs fmt => UnwrapM (some (i, fs, fmt))
  | .multiNil => none
  | .chainE [] => none
  | .chainE [_] => none
  | .chainE (_ :: f2 :: fs) => some (.chainE (f2 :: fs))

/-- Source `IsMultiple`: `errors.As(e, &t)` for a `*Multi` target; if that
fails, one explicit `errors.Unwrap` step followed by `errors.As` again
(`errors.As` on a nil unwrap result is false). -/
def IsMultipleE (e : Err) : Bool :=
  errAsMulti e ||
    match goUnwrap1 e with
    | none => false
    | some l => errAsMulti l

/-- Source `MultiResult`: a direct type assertion `e.(*Multi)`.  A non-
`*Multi` value gives `([], false)`; a non-nil `*Multi` gives its failures
and `true`; a typed-nil `*Multi` passes the assertion and then faults
reading `err.Failures` (modelled `none`). -/
def MultiResultE : Err → Option (List Err × Bool)
  | .multi _ fs _ => some (fs, true)
  | .multiNil => none
  | _ => some ([], false)

/-- True exactly for a non-nil `*Multi` value. -/
def isDirectMulti : Err → Bool
  | .multi _ _ _ => true
  | _ => false

/-- True exactly for a typed-nil `*Multi` value. -/
def isNilMulti : Err → Bool
  | .multiNil => true
  | _ => false

example : errIs (.multi 9 [.base 0 "foo", .base 1 "bar", .base 2 "baz"] none) (.base 1 "bar") = true := rfl
example : errIs (.multi 9 [.base 0 "foo", .wrap "errorf: bar" (.base 1 "bar"), .base 2 "baz"] none)
    (.base 1 "bar") = true := rfl
example : errIs (.multi 9 [.base 0 "foo", .base 2 "baz"] none) (.base 1 "bar") = false := rfl
example : errIs (.multi 9 [] none) (.base 1 "bar") = false := rfl
example : errIs (.multi 3 [.base 0 "a"] none) (.multi 3 [.base 0 "a"] none) = true := rfl
example : errIs (.multi 3 [] none) (.multi 4 [] none) = false := rfl
example : IsMultipleE (.wrap "w" (.multi 9 [.base 0 "x"] none)) = true := rfl
example : IsMultipleE (.base 0 "x") = false := rfl
example : MultiResultE (.wrap "w" (.multi 9 [.base 0 "x"] none)) = some ([], false) := rfl
example : MultiResultE .multiNil = none := rfl

/-- One iteration of the loop inside `Append`'s `*Multi` branch, acting
on the accumulated failures: a non-nil `*Multi` item has its failures
spliced in; a typed-nil `*Multi` item and a nil item are skipped; any
other item is appended as one failure. -/
def appendItem (acc : List Err) (e : Option Err) : List Err :=
  match e with
  | none => acc
  | some .multiNil => acc
  | some (.multi _ fs _) => acc ++ fs
  | some e => acc ++ [e]

/-- Source `Append err errs...`.  The `*Multi` case (a typed nil being
replaced by a fresh empty `Multi` first, whose `Formatter` is nil) runs
the item loop over the receiver's failures; the default case builds
`newErrs` (the first argument, when non-nil, followed by all items) and
recurses on a fresh empty `Multi` — that recursive call is unfolded here.
The result is the returned `*Multi`'s `(Failures, Formatter)` pair. -/
def goAppend : Option Err → List (Option Err) → List Err × Option FmtT
  | some (.multi _ fs fmt), items => (items.foldl appendItem fs, fmt)
  | some .multiNil, items => (items.foldl appendItem [], none)
  | some e, items => ((some e :: items).foldl appendItem [], none)
  | none, items => (items.foldl appendItem [], none)

/-- The failures an argument of `Append` contributes per the claim: a
non-nil `*Multi` contributes its failure list, a nil argument or a
typed-nil `*Multi` contributes nothing, any other error contributes
itself.  (Stated from the specification's words, for comparison with
`goAppend`.) -/
def itemContrib : Option Err → List Err
  | none => []
  | some .multiNil => []
  | some (.multi _ fs _) => fs
  | some e => [e]

mutual

/-- Source helper `flatten(err, flatErr)`, in accumulator-passing form:
returns the final contents of `flatErr.Failures` given its current
contents `acc`, or `none` when the walk faults.  A non-nil `*Multi` is
expanded by walking its failures; a typed-nil `*Multi` faults reading
`err.Failures` (nil-pointer dereference); anything else is appended
as-is. -/
def flattenGo : Err → List Err → Option (List Err)
  | .multi _ fs _, acc => flattenList fs acc
  | .multiNil, _ => none
  | e, acc => some (acc ++ [e])

/-- The loop over a `*Multi`'s failures inside `flatten`. -/
def flattenList : List Err → List Err → Option (List Err)
  | [], acc => some acc
  | f :: fs, acc =>
      match flattenGo f acc with
      | none => none
      | some acc1 => flattenList fs acc1

end

/-- Source `Flatten`: a value that is not a `*Multi` (by type assertion)
is returned unchanged; a `*Multi` (nil or not) is walked by `flatten`
into a fresh `Multi` (`new(Multi)`: nil `Formatter`), `none` when the
walk faults.  The fresh allocation is given identity `0` — no claim
compares `Flatten`'s result by pointer, so the identity of the new
`Multi` is irrelevant to everything proved about it. -/
def FlattenE (e : Err) : Option Err :=
  match e with
  | .multi _ _ _ | .multiNil => (flattenGo e []).map (fun l => .multi 0 l none)
  | _ => some e

mutual

/-- The flat failure list the specification describes for `Flatten`: the
non-`*Multi` errors reachable through arbitrarily deep `*Multi` nesting,
in left-to-right depth-first order, a (typed-nil) `*Multi` with no
failures contributing nothing.  (Stated from the specification's words,
for comparison with `flattenGo`.) -/
def deepFlat : Err → List Err
  | .multi _ fs _ => deepFlatList fs
  | .multiNil => []
  | e => [e]

/-- Depth-first flattening of a failure list, per the specification. -/
def deepFlatList : List Err → List Err
  | [] => []
  | f :: fs => deepFlat f ++ deepFlatList fs

end

mutual

/-- True when no typed-nil `*Multi` is reachable from `e` through
`*Multi` nesting alone (the positions `flatten` walks). -/
def noNilMulti : Err → Bool
  | .multi _ fs _ => noNilMultiList fs
  | .multiNil => false
  | _ => true

/-- List version of `noNilMulti`. -/
def noNilMultiList : List Err → Bool
  | [] => true
  | f :: fs => noNilMulti f && noNilMultiList fs

end

/-- One task completion observed by a `Group`: a nil result leaves the
shared `*Multi` alone; a non-nil result `e` runs
`g.err = Append(g.err, e)` under the lock (`g.err` being a typed-nil
`*Multi` until the first append).  `Append` on the typed-nil reference
allocates the group's one `Multi` (`new(Multi)`, given identity `0`;
this is the only allocation in a group's lifetime, every later `Append`
returning the same pointer), so that allocation's identity is kept
thereafter. -/
def groupStep (g : MRef) (r : Option Err) : MRef :=
  match r with
  | none => g
  | some e =>
      some (match g with | none => 0 | some (i, _, _) => i,
        goAppend (some (MRef.toErr g)) [some e])

/-- The accumulated `*Multi` a `Group`'s `Wait` returns after the given
sequence of task completions (`g.err` starts as a typed-nil `*Multi`;
completion order is arbitrary and is quantified over in the claim). -/
def groupRun (completions : List (Option Err)) : MRef :=
  completions.foldl groupStep none

example : (goAppend none [some (.base 0 "a")]).1 = [.base 0 "a"] := rfl
example : (goAppend (some (.base 0 "a")) [some (.base 1 "b"), none]).1 =
    [.base 0 "a", .base 1 "b"] := rfl
example : (goAppend (some .multiNil) [some (.multi 9 [.base 0 "a", .base 1 "b"] none)]).1 =
    [.base 0 "a", .base 1 "b"] := rfl
example : FlattenE (.base 0 "x") = some (.base 0 "x") := rfl
example :
    FlattenE (.multi 9 [.base 0 "one",
      .multi 8 [.base 1 "two", .multi 7 [.base 2 "three"] none] none] none) =
    some (.multi 0 [.base 0 "one", .base 1 "two", .base 2 "three"] none) := rfl
example : FlattenE .multiNil = none := rfl
example : FlattenE (.multi 9 [.multiNil] none) = none := rfl
example : WrappedErrorsM (groupRun [some (.base 0 "a"), none, some (.base 1 "b")]) =
    [.base 0 "a", .base 1 "b"] := rfl
example : ErrorOrNilM (groupRun [none, none]) = none := rfl
example : ErrorOrNilM (groupRun []) = none := rfl

/-- A heap of slice backing arrays: `mem i` is the contents of array `i`
(its length playing the role of the capacity), `next` the first
unallocated array identifier. -/
structure Heap where
  mem : Nat → List Err
  next : Nat

/-- A Go slice of `error`: a backing array identifier and a length
(offsets are not needed for the code modelled here). -/
structure GoSlice where
  arr : Nat
  len : Nat

/-- The elements a slice denotes: the first `len` entries of its backing
array. -/
def sliceView (h : Heap) (s : GoSlice) : List Err :=
  (h.mem s.arr).take s.len

/-- Pointwise update of the array store. -/
def updMem (m : Nat → List Err) (i : Nat) (v : List Err) : Nat → List Err :=
  fun j => if j = i then v else m j

/-- The error value `Multi.Unwrap` returns in the heap-level model:
either an ordinary error value or a `chain` backed by a heap slice. -/
inductive HErr where
  | val (e : Err)
  | chainH (s : GoSlice)

/-- Source `Multi.Unwrap`, heap-level model exposing the allocation: a
nil receiver or an empty failure list gives no further cause; a single
failure is returned directly (`e.Failures[0]`); otherwise
`errs := make([]error, len(e.Failures))` and `copy(errs, e.Failures)`
allocate a fresh backing array holding the current failures, and the
returned `chain` is backed by that fresh array. -/
def unwrapH (h : Heap) (m : Option GoSlice) : Option HErr × Heap :=
  match m with
  | none => (none, h)
  | some s =>
      if s.len = 0 then (none, h)
      else if s.len = 1 then (some (.val ((sliceView h s).headD (.base 0 ""))), h)
      else
        (some (.chainH ⟨h.next, s.len⟩),
         ⟨updMem h.mem h.next (sliceView h s), h.next + 1⟩)

/-- Go `append(s, x)` followed by storing the result back into the
`Failures` field: with spare capacity the element is written in place
into the backing array; otherwise a fresh, larger backing array is
allocated holding the old elements and `x`. -/
def heapAppend (h : Heap) (s : GoSlice) (x : Err) : Heap × GoSlice :=
  if s.len < (h.mem s.arr).length then
    (⟨updMem h.mem s.arr ((h.mem s.arr).set s.len x), h.next⟩, ⟨s.arr, s.len + 1⟩)
  else
    (⟨updMem h.mem h.next ((h.mem s.arr).take s.len ++ [x]), h.next + 1⟩,
     ⟨h.next, s.len + 1⟩)

/-- A sequence of appends to the `Failures` slice of a `Multi` (as
performed by later `Append` calls on it), threading the heap and the
updated slice. -/
def appendMany : Heap → GoSlice → List Err → Heap × GoSlice
  | h, s, [] => (h, s)
  | h, s, x :: xs => appendMany (heapAppend h s x).1 (heapAppend h s x).2 xs

example : ErrorOrNilM (some (9, [], none)) = none := rfl
example : ErrorOrNilM none = none := rfl
example : UnwrapM (some (9, [.base 0 "a"], none)) = some (.base 0 "a") := rfl
example : MultiError (some (9, [.base 0 "foo", .base 1 "bar"], none)) =
    some "2 errors occurred:\n\t* foo\n\t* bar\n\n" := rfl
example : MultiError (some (9, [], none)) = some "0 errors occurred:\n\t\n\n" := rfl
example : MultiError (some (9, [.base 0 "foo"], none)) =
    some "1 error occurred:\n\t* foo\n\n" := rfl

section Lemmas

/-- No value compares interface-equal to a `chain` in the model (a slice
type is not comparable to our other forms' dynamic types). -/
lemma goEq_chainE (es : List Err) (t : Err) : goEq (.chainE es) t = false := by
  cases t <;> rfl

/-- The `errors.Is` walk over a non-empty `chain` finds `t` exactly when
some element's own `errors.Is` finds it, left to right. -/
lemma chainIs_eq_any (f : Err) (fs : List Err) (t : Err) :
    chainIs (f :: fs) t = (f :: fs).any (fun g => errIs g t) := by
  induction fs generalizing f with
  | nil => simp [chainIs, goEq_chainE]
  | cons f2 rest ih => simp [chainIs, goEq_chainE, ih f2, List.any_cons]

end Lemmas

/-- C1 counterexample.  The claim requires `errors.Is m t` to be false
for every target `t` when `m` has zero failures; but `errors.Is` first
checks `err == target`, and a `*Multi` is a comparable pointer type, so
passing the same empty `Multi` allocation (identity `0` here) as both
subject and target yields true — while no failure (there are none)
equals or chain-contains the target, as the second conjunct records. -/
theorem multi_errIs_self_counterexample :
    errIs (.multi 0 [] none) (.multi 0 [] none) = true ∧
    ([] : List Err).any (fun f => errIs f (.multi 0 [] none)) = false :=
  ⟨rfl, rfl⟩

/-- C1 (corrected).  For every `Multi` (any allocation identity `i`,
failures `fs`, formatter) and every target `t`, `errors.Is` on the
`Multi` returns true iff `t` is the very same `*Multi` allocation (the
`err == target` pointer-equality step of `errors.Is`, `goEq`), or `t`
equals or lies in the cause chain of some failure in `fs` — that is,
`errors.Is` succeeds on some failure — with the failures examined in
insertion order and the search short-circuiting on the first match (the
left-to-right, short-circuiting `List.any`); in particular, with zero
failures it is true exactly for a target pointer-equal to the `Multi`
itself, and it is false whenever `t` is not the `Multi` itself and no
failure's chain contains it. -/
theorem multi_errIs_eq_self_or_any (i : Nat) (fs : List Err) (fmt : Option FmtT)
    (t : Err) :
    errIs (.multi i fs fmt) t =
      (goEq (.multi i fs fmt) t || fs.any (fun f => errIs f t)) := by
  match fs with
  | [] => simp [errIs]
  | [f] => simp [errIs]
  | f1 :: f2 :: rest => simp [errIs, chainIs_eq_any]

section AppendLemmas

/-- One `Append` loop iteration adds exactly the item's contribution. -/
lemma appendItem_eq (acc : List Err) (i : Option Err) :
    appendItem acc i = acc ++ itemContrib i := by
  match i with
  | none => simp [appendItem, itemContrib]
  | some e => cases e <;> simp [appendItem, itemContrib]

/-- The `Append` loop over any item list adds the concatenation of the
items' contributions. -/
lemma foldl_appendItem (items : List (Option Err)) (acc : List Err) :
    items.foldl appendItem acc = acc ++ (items.map itemContrib).flatten := by
  induction items generalizing acc with
  | nil => simp
  | cons i rest ih => simp [List.foldl_cons, appendItem_eq, ih, List.append_assoc]

/-- Failure list computed by `Append`: the first argument's contribution
followed by each item's contribution, in order. -/
lemma goAppend_fst (err : Option Err) (items : List (Option Err)) :
    (goAppend err items).1 = itemContrib err ++ (items.map itemContrib).flatten := by
  match err with
  | none => simp [goAppend, foldl_appendItem, itemContrib]
  | some e =>
      cases e <;>
        simp [goAppend, foldl_appendItem, appendItem_eq, itemContrib]

end AppendLemmas

/-- C3 (confirmed).  For every first argument (nil, a plain error, a
non-nil `*Multi`, or a typed-nil `*Multi`) and every item list, the
failure list of the `*Multi` returned by `Append` is: the failures
already in the first argument (`[err]` for a non-nil plain error, the
empty list for nil or a typed-nil `*Multi`), followed, item by item in
order, by the item's failures when it is a non-nil `*Multi` (spliced in
individually), by nothing when it is nil or a typed-nil `*Multi`, and by
the item itself otherwise.  Totality of `goAppend` (no `Option` in its
result) reflects that the operation never dereferences a missing
receiver. -/
theorem append_failures_spec (err : Option Err) (items : List (Option Err)) :
    (goAppend err items).1 = itemContrib err ++ (items.map itemContrib).flatten :=
  goAppend_fst err items

/-- C6 (confirmed).  `ErrorOrNil` returns nil exactly when the receiver
is nil or has zero failures, and otherwise returns the receiver itself
as the error value; `WrappedErrors` returns the failure list verbatim,
and the empty list on a nil receiver; `Unwrap` on a nil receiver behaves
as the empty case; none of the three faults on a typed-nil receiver
(each is total on `none`). -/
theorem accessors_nil_safe (i : Nat) (fs : List Err) (fmt : Option FmtT) :
    ErrorOrNilM none = none ∧
    ErrorOrNilM (some (i, fs, fmt)) =
      (if fs.isEmpty then none else some (.multi i fs fmt)) ∧
    WrappedErrorsM none = [] ∧
    WrappedErrorsM (some (i, fs, fmt)) = fs ∧
    UnwrapM none = none := by
  refine ⟨rfl, ?_, rfl, rfl, rfl⟩
  cases fs <;> simp [ErrorOrNilM]

/-- C7 (confirmed).  The default formatter is byte-exact: one failure
gives `"1 error occurred:\n\t* <err>\n\n"`; `N ≥ 2` failures give the
count, the bullets joined by newline-plus-tab, and two trailing
newlines; and a `Multi` with failures displaying as `"foo"` and `"bar"`
and no custom formatter displays exactly
`"2 errors occurred:\n\t* foo\n\t* bar\n\n"`. -/
theorem list_format_exact :
    (∀ s : String, listFormatFn [s] = "1 error occurred:\n\t* " ++ s ++ "\n\n") ∧
    (∀ ss : List String, 2 ≤ ss.length →
      listFormatFn ss =
        toString ss.length ++ " errors occurred:\n\t" ++
          String.intercalate "\n\t" (ss.map (fun m => "* " ++ m)) ++ "\n\n") ∧
    MultiError (some (9, [.base 0 "foo", .base 1 "bar"], none)) =
      some "2 errors occurred:\n\t* foo\n\t* bar\n\n" := by
  refine ⟨fun s => rfl, fun ss h => ?_, rfl⟩
  match ss with
  | [] => simp at h
  | [x] => simp at h
  | x :: y :: rest => rfl

/-- Witness for C7: the `N ≥ 2` branch evaluated at the concrete
failures of the claim. -/
theorem list_format_exact_witness :
    2 ≤ (["foo", "bar"] : List String).length ∧
    listFormatFn ["foo", "bar"] = "2 errors occurred:\n\t* foo\n\t* bar\n\n" :=
  ⟨by decide, (list_format_exact.2.1 ["foo", "bar"] (by decide)).trans (by rfl)⟩

/-- C9 (confirmed).  A non-nil `Multi` with zero failures and no custom
formatter displays through the `N ≠ 1` branch of the default formatter
as exactly `"0 errors occurred:\n\t\n\n"` — not the empty string and not
a special-cased message. -/
theorem empty_multi_error_string :
    MultiError (some (9, [], none)) = some "0 errors occurred:\n\t\n\n" := rfl

section HeapLemmas

/-- Appending through a slice leaves every other allocated array's view
unchanged, keeps the appended-to slice away from that array, and keeps
both arrays allocated. -/
lemma heapAppend_frame (h : Heap) (s : GoSlice) (x : Err) (c : GoSlice)
    (hne : c.arr ≠ s.arr) (hc : c.arr < h.next) (hs : s.arr < h.next) :
    sliceView (heapAppend h s x).1 c = sliceView h c ∧
    c.arr ≠ (heapAppend h s x).2.arr ∧
    c.arr < (heapAppend h s x).1.next ∧
    (heapAppend h s x).2.arr < (heapAppend h s x).1.next := by
  by_cases hcap : s.len < (h.mem s.arr).length
  · refine ⟨?_, ?_, ?_, ?_⟩ <;> simp [heapAppend, hcap, sliceView, updMem]
    · rw [if_neg hne]
    · exact hne
    · exact hc
    · exact hs
  · refine ⟨?_, ?_, ?_, ?_⟩ <;> simp [heapAppend, hcap, sliceView, updMem]
    · rw [if_neg (Nat.ne_of_lt hc)]
    · exact Nat.ne_of_lt hc
    · exact Nat.lt_succ_of_lt hc

/-- A whole sequence of appends through a slice leaves every other
allocated array's view unchanged. -/
lemma appendMany_frame (c : GoSlice) :
    ∀ (xs : List Err) (h : Heap) (s : GoSlice),
      c.arr ≠ s.arr → c.arr < h.next → s.arr < h.next →
      sliceView (appendMany h s xs).1 c = sliceView h c
  | [], _, _, _, _, _ => rfl
  | x :: xs, h, s, hne, hc, hs => by
      have H := heapAppend_frame h s x c hne hc hs
      rw [appendMany,
        appendMany_frame c xs (heapAppend h s x).1 (heapAppend h s x).2
          H.2.1 H.2.2.1 H.2.2.2, H.1]

end HeapLemmas

/-- C2 (confirmed).  In the heap-level model of `Multi.Unwrap` (for a
well-formed `Failures` slice: length within the backing array, backing
array allocated): a nil receiver or zero failures give no further cause;
exactly one failure gives that failure itself; two or more failures give
a `chain` view backed by a freshly allocated shallow copy of the failure
list, whose elements are exactly the failures present at unwrap time, in
order — and after any sequence of later appends to the `Multi`'s
`Failures` slice, the already-produced chain still views exactly those
same failures. -/
theorem multi_unwrap_shallow_copy (h : Heap) (s : GoSlice)
    (hlen : s.len ≤ (h.mem s.arr).length) (harr : s.arr < h.next) :
    unwrapH h none = (none, h) ∧
    (s.len = 0 → unwrapH h (some s) = (none, h)) ∧
    (∀ f, sliceView h s = [f] → unwrapH h (some s) = (some (.val f), h)) ∧
    (2 ≤ s.len →
      unwrapH h (some s) =
        (some (.chainH ⟨h.next, s.len⟩),
         ⟨updMem h.mem h.next (sliceView h s), h.next + 1⟩) ∧
      sliceView (unwrapH h (some s)).2 ⟨h.next, s.len⟩ = sliceView h s ∧
      ∀ xs, sliceView (appendMany (unwrapH h (some s)).2 s xs).1 ⟨h.next, s.len⟩ =
        sliceView h s) := by
  have hview : (sliceView h s).length = s.len := by
    simp [sliceView, Nat.min_eq_left hlen]
  refine ⟨rfl, ?_, ?_, ?_⟩
  · intro h0; simp [unwrapH, h0]
  · intro f hf
    have h1 : s.len = 1 := by rw [← hview, hf]; rfl
    simp [unwrapH, h1, hf]
  · intro h2
    have h0 : ¬ s.len = 0 := by omega
    have h1 : ¬ s.len = 1 := by omega
    have heq : unwrapH h (some s) =
        (some (.chainH ⟨h.next, s.len⟩),
         ⟨updMem h.mem h.next (sliceView h s), h.next + 1⟩) := by
      simp [unwrapH, h0, h1]
    have hcv : sliceView (unwrapH h (some s)).2 ⟨h.next, s.len⟩ = sliceView h s := by
      rw [heq]
      simp [sliceView, updMem, List.take_take]
    refine ⟨heq, hcv, fun xs => ?_⟩
    rw [heq]
    have hfr := appendMany_frame ⟨h.next, s.len⟩ xs
      ⟨updMem h.mem h.next (sliceView h s), h.next + 1⟩ s
      (Ne.symm (Nat.ne_of_lt harr)) (Nat.lt_succ_self _) (Nat.lt_succ_of_lt harr)
    rw [hfr]
    rw [heq] at hcv
    exact hcv

mutual

/-- When no typed-nil `*Multi` is reachable through `*Multi` nesting,
the `flatten` walk does not fault and produces exactly the depth-first
flat list the specification describes. -/
theorem flattenGo_eq : ∀ (e : Err) (acc : List Err), noNilMulti e = true →
    flattenGo e acc = some (acc ++ deepFlat e)
  | .multi i fs fmt, acc, hn => by
      have hn1 : noNilMultiList fs = true := by simpa [noNilMulti] using hn
      rw [show flattenGo (.multi i fs fmt) acc = flattenList fs acc from rfl,
        flattenList_eq fs acc hn1]
      simp [deepFlat]
  | .multiNil, _, hn => by simp [noNilMulti] at hn
  | .base _ _, _, _ => by simp [flattenGo, deepFlat]
  | .wrap _ _, _, _ => by simp [flattenGo, deepFlat]
  | .chainE _, _, _ => by simp [flattenGo, deepFlat]

/-- List version of `flattenGo_eq`. -/
theorem flattenList_eq : ∀ (fs : List Err) (acc : List Err),
    noNilMultiList fs = true →
    flattenList fs acc = some (acc ++ deepFlatList fs)
  | [], acc, _ => by simp [flattenList, deepFlatList]
  | f :: fs, acc, hn => by
      have h1 : noNilMulti f = true := by
        have := hn; simp [noNilMultiList, Bool.and_eq_true] at this; exact this.1
      have h2 : noNilMultiList fs = true := by
        have := hn; simp [noNilMultiList, Bool.and_eq_true] at this; exact this.2
      rw [show flattenList (f :: fs) acc =
            (match flattenGo f acc with
             | none => none
             | some acc1 => flattenList fs acc1) from rfl,
        flattenGo_eq f acc h1]
      simp only []
      rw [flattenList_eq fs (acc ++ deepFlat f) h2]
      simp [deepFlatList, List.append_assoc]

end

/-- C4 counterexample.  The claim says `Flatten` applied to a `Multi`
returns a new `Multi`; on a typed-nil `*Multi` (which passes the
`err.(*Multi)` type assertion) the walk instead dereferences nil reading
`err.Failures` and panics (modelled `none`). -/
theorem flatten_nil_multi_counterexample : FlattenE Err.multiNil = none := rfl

/-- C4 (corrected).  `Flatten` on an error that is not a `*Multi` (by
dynamic type) returns that same value unchanged; `Flatten` on a non-nil
`*Multi` none of whose transitively nested (through `*Multi` failure
lists) members is a typed-nil `*Multi` returns a new `Multi` (with nil
formatter) whose failure list is exactly the non-`*Multi` errors
reachable through arbitrarily deep `*Multi` nesting, in left-to-right
depth-first order.  (On a typed-nil `*Multi`, at top level or nested,
the walk faults instead — see the counterexample.) -/
theorem flatten_spec_amended :
    (∀ e : Err, isDirectMulti e = false → isNilMulti e = false →
      FlattenE e = some e) ∧
    (∀ (i : Nat) (fs : List Err) (fmt : Option FmtT), noNilMultiList fs = true →
      FlattenE (.multi i fs fmt) = some (.multi 0 (deepFlatList fs) none)) := by
  constructor
  · intro e h1 h2
    match e with
    | .multi _ _ _ => simp [isDirectMulti] at h1
    | .multiNil => simp [isNilMulti] at h2
    | .base _ _ => rfl
    | .wrap _ _ => rfl
    | .chainE _ => rfl
  · intro i fs fmt hn
    have : flattenGo (.multi i fs fmt) [] = some ([] ++ deepFlat (.multi i fs fmt)) :=
      flattenGo_eq _ _ (by simpa [noNilMulti] using hn)
    simp [FlattenE, this, deepFlat]

/-- Witness for C4 (amended): the identity case at a plain error, and
the flattening case at a nested aggregate. -/
theorem flatten_spec_amended_witness :
    (isDirectMulti (Err.base 0 "x") = false ∧ isNilMulti (Err.base 0 "x") = false ∧
      FlattenE (Err.base 0 "x") = some (Err.base 0 "x")) ∧
    (noNilMultiList [Err.base 0 "one",
        Err.multi 8 [Err.base 1 "two", Err.multi 7 [Err.base 2 "three"] none] none] = true ∧
      FlattenE (Err.multi 9 [Err.base 0 "one",
        Err.multi 8 [Err.base 1 "two", Err.multi 7 [Err.base 2 "three"] none] none] none) =
        some (Err.multi 0 [Err.base 0 "one", Err.base 1 "two", Err.base 2 "three"] none)) :=
  ⟨⟨rfl, rfl, flatten_spec_amended.1 _ rfl rfl⟩,
   ⟨rfl, flatten_spec_amended.2 9 _ none rfl⟩⟩

/-- C5 counterexample.  The claim says the display-string conversion
never panics, including through a typed-nil `*Multi` receiver; in fact
`Multi.Error` reads `e.Formatter` without a nil guard, so a typed-nil
receiver dereferences nil and panics (modelled `none`). -/
theorem multi_error_nil_counterexample : MultiError none = none := rfl

/-- C5 (corrected).  The display-string conversion `Error` never panics
on any non-nil `Multi` value (any failures, any formatter); called
through a typed-nil `*Multi` receiver it faults on the unguarded
`e.Formatter` read instead of degrading to a safe result. -/
theorem multi_error_total_amended :
    (∀ (i : Nat) (fs : List Err) (fmt : Option FmtT),
      (MultiError (some (i, fs, fmt))).isSome = true) ∧
    MultiError none = none :=
  ⟨fun _ _ _ => rfl, rfl⟩

/-- C10 counterexample.  The claim says `MultiResult` returns
`(failures, true)` exactly when its argument is directly a `*Multi`; a
typed-nil `*Multi` is directly a `*Multi` (it passes the type
assertion), yet the subsequent `err.Failures` read dereferences nil and
panics (modelled `none`) instead of returning. -/
theorem multi_result_nil_counterexample : MultiResultE Err.multiNil = none := rfl

/-- C10 (corrected).  `MultiResult` returns `(failures, true)` on every
non-nil `*Multi`, returns `([], false)` on every error that is not a
`*Multi` by dynamic type — including an error that merely wraps a
`*Multi` — and faults on a typed-nil `*Multi` (see counterexample);
`IsMultiple` searches the unwrap chain and is true on an error wrapping
a non-nil `*Multi`, so the two introspection operations disagree on such
wrappers. -/
theorem multi_result_vs_is_multiple :
    (∀ (i : Nat) (fs : List Err) (fmt : Option FmtT),
      MultiResultE (.multi i fs fmt) = some (fs, true)) ∧
    (∀ e : Err, isDirectMulti e = false → isNilMulti e = false →
      MultiResultE e = some ([], false)) ∧
    (∀ (m : String) (i : Nat) (fs : List Err) (fmt : Option FmtT),
      IsMultipleE (.wrap m (.multi i fs fmt)) = true ∧
      MultiResultE (.wrap m (.multi i fs fmt)) = some ([], false)) := by
  refine ⟨fun _ _ _ => rfl, ?_, fun m i fs fmt => ⟨rfl, rfl⟩⟩
  intro e h1 h2
  match e with
  | .multi _ _ _ => simp [isDirectMulti] at h1
  | .multiNil => simp [isNilMulti] at h2
  | .base _ _ => rfl
  | .wrap _ _ => rfl
  | .chainE _ => rfl

/-- Witness for C10 (amended): the non-`*Multi` case at a plain error,
and the disagreement at a concrete wrapper around an aggregate. -/
theorem multi_result_vs_is_multiple_witness :
    (isDirectMulti (Err.base 7 "p") = false ∧ isNilMulti (Err.base 7 "p") = false ∧
      MultiResultE (Err.base 7 "p") = some ([], false)) ∧
    (IsMultipleE (Err.wrap "w" (Err.multi 9 [Err.base 0 "x"] none)) = true ∧
      MultiResultE (Err.wrap "w" (Err.multi 9 [Err.base 0 "x"] none)) = some ([], false)) :=
  ⟨⟨rfl, rfl, multi_result_vs_is_multiple.2.1 _ rfl rfl⟩,
   multi_result_vs_is_multiple.2.2 "w" 9 [Err.base 0 "x"] none⟩

section GroupLemmas

/-- What a `*Multi` reference contributes when handed to `Append` as the
first argument is exactly its current failure list. -/
lemma itemContrib_toErr (g : MRef) : itemContrib (some (MRef.toErr g)) = WrappedErrorsM g := by
  match g with
  | none => rfl
  | some (i, fs, fmt) => rfl

/-- Accumulated failures after a sequence of completions whose non-nil
results are plain (not `*Multi`-typed): the starting failures followed by
the non-nil results in completion order. -/
lemma groupRun_failures : ∀ (cs : List (Option Err)) (g : MRef),
    (∀ e ∈ cs.filterMap id, isDirectMulti e = false ∧ isNilMulti e = false) →
    WrappedErrorsM (cs.foldl groupStep g) = WrappedErrorsM g ++ cs.filterMap id
  | [], g, _ => by simp
  | none :: cs, g, hp => by
      rw [List.foldl_cons, show groupStep g none = g from rfl]
      rw [groupRun_failures cs g (by simpa using hp)]
      simp
  | some e :: cs, g, hp => by
      have he : isDirectMulti e = false ∧ isNilMulti e = false := by
        apply hp; simp
      have hrest : ∀ x ∈ cs.filterMap id, isDirectMulti x = false ∧ isNilMulti x = false := by
        intro x hx; apply hp; simp [hx]
      rw [List.foldl_cons]
      rw [groupRun_failures cs _ hrest]
      have hstep : WrappedErrorsM (groupStep g (some e)) = WrappedErrorsM g ++ [e] := by
        show (goAppend (some (MRef.toErr g)) [some e]).1 = _
        rw [goAppend_fst, itemContrib_toErr]
        have : itemContrib (some e) = [e] := by
          match e with
          | .base _ _ => rfl
          | .wrap _ _ => rfl
          | .chainE _ => rfl
          | .multi _ _ _ => simp [isDirectMulti] at he
          | .multiNil => simp [isNilMulti] at he
        simp [this]
      rw [hstep]
      simp

end GroupLemmas

/-- C8 counterexample.  The claim says the accumulated failures' display
strings are exactly those of the non-nil errors returned by the tasks;
but when a task returns a (non-nil) `*Multi`, `Append` splices its
member failures in individually, so the aggregate holds the members'
display strings — here `"a"` — and not the returned error's own display
string, which is absent from the aggregate. -/
theorem group_wait_counterexample :
    "a" ∈ (WrappedErrorsM (groupRun
        [some (.multi 9 [.base 0 "a", .base 1 "b"] none)])).map errMsg ∧
    "a" ∉ (([some (.multi 9 [.base 0 "a", .base 1 "b"] none)].filterMap
        (id : Option Err → Option Err)).map errMsg) := by
  constructor
  · show "a" ∈ ["a", "b"]
    simp
  · show "a" ∉ ["2 errors occurred:\n\t* a\n\t* b\n\n"]
    simp

/-- C8 (corrected).  For tasks submitted to a `Group`, with the task
results observed in an arbitrary completion order (any permutation of
the result list), and provided every non-nil result is a plain error
(not a non-nil `*Multi`, which `Append` would splice element-wise, and
not a typed-nil `*Multi`, which it would drop), the accumulated `Multi`
returned by `Wait` has failures whose display strings are exactly the
display strings of the non-nil results (as a multiset; order
unconstrained); and when no task returned a non-nil error — including
when no task was submitted — the result converts to nil through
`ErrorOrNil`. -/
theorem group_wait_amended (results completions : List (Option Err))
    (hperm : completions.Perm results)
    (hplain : ∀ e ∈ results.filterMap id,
      isDirectMulti e = false ∧ isNilMulti e = false) :
    ((WrappedErrorsM (groupRun completions)).map errMsg).Perm
      ((results.filterMap id).map errMsg) ∧
    (results.filterMap id = [] → ErrorOrNilM (groupRun completions) = none) := by
  have hpermf : (completions.filterMap id).Perm (results.filterMap id) :=
    hperm.filterMap id
  have hplainc : ∀ e ∈ completions.filterMap id,
      isDirectMulti e = false ∧ isNilMulti e = false := by
    intro e he; exact hplain e (hpermf.mem_iff.mp he)
  have hfail : WrappedErrorsM (groupRun completions) = completions.filterMap id := by
    rw [groupRun, groupRun_failures completions none hplainc]; rfl
  constructor
  · rw [hfail]; exact hpermf.map errMsg
  · intro hnil
    have hcnil : completions.filterMap id = [] := by
      rw [hnil] at hpermf
      exact hpermf.eq_nil
    match hg : groupRun completions with
    | none => rfl
    | some (j, fs, fmt) =>
        have hfs : fs = [] := by
          have h2 := hfail
          rw [hg] at h2
          simpa [WrappedErrorsM, hcnil] using h2
        simp [ErrorOrNilM, hfs]

/-- Witness for C8 (amended): two plain-error tasks and one nil task,
observed in a different order than submitted. -/
theorem group_wait_amended_witness :
    ([some (.base 1 "y"), none, some (.base 0 "x")] : List (Option Err)).Perm
      [some (.base 0 "x"), none, some (.base 1 "y")] ∧
    ((WrappedErrorsM (groupRun [some (.base 1 "y"), none, some (.base 0 "x")])).map
        errMsg).Perm
      ((([some (.base 0 "x"), none, some (.base 1 "y")] : List (Option Err)).filterMap
          id).map errMsg) := by
  have hp : ([some (.base 1 "y"), none, some (.base 0 "x")] : List (Option Err)).Perm
      [some (.base 0 "x"), none, some (.base 1 "y")] := by
    have := List.reverse_perm
      ([some (.base 0 "x"), none, some (.base 1 "y")] : List (Option Err))
    simpa using this
  exact ⟨hp, (group_wait_amended _ _ hp (by
    intro e he
    simp at he
    rcases he with h | h <;> subst h <;> exact ⟨rfl, rfl⟩)).1⟩

/-- Sample heap for the C2 witness: one allocated array holding two
failures. -/
def c2Heap : Heap :=
  ⟨fun i => if i = 0 then [Err.base 0 "a", Err.base 1 "b"] else [], 1⟩

/-- Sample `Failures` slice for the C2 witness. -/
def c2Slice : GoSlice := ⟨0, 2⟩

/-- Witness for C2: the two-or-more branch evaluated on a concrete heap,
with one later append, the produced chain still viewing the two original
failures. -/
theorem multi_unwrap_shallow_copy_witness :
    c2Slice.len ≤ (c2Heap.mem c2Slice.arr).length ∧ c2Slice.arr < c2Heap.next ∧
    2 ≤ c2Slice.len ∧
    sliceView (appendMany (unwrapH c2Heap (some c2Slice)).2 c2Slice [Err.base 2 "c"]).1
      ⟨c2Heap.next, c2Slice.len⟩ = sliceView c2Heap c2Slice :=
  ⟨by decide, by decide, by decide,
    ((multi_unwrap_shallow_copy c2Heap c2Slice (by decide) (by decide)).2.2.2
      (by decide)).2.2 [Err.base 2 "c"]⟩
